import Mathlib

/-!
Shallow embedding of `src/tracker_2.py` (class `ExpenseTracker`).

The GUI-relevant state of the application is collected in `State`:
the text of the amount field (`amount_input`), the currently selected
item and the item list of the category combo box (`category_current`,
`category_items`), the text of the custom-category field
(`custom_category_input`), the two read-only date/time labels
(`date_input`, `time_input`), and the expense ledger (`expenses`,
mirroring `self.expenses`).  Amounts are modelled as rationals;
Python `float` parsing is modelled by `parseFloat` on the plain
decimal fragment (optional sign, digits, optional fractional part),
which is faithful to `float(text)` on every string it accepts.
-/

namespace Tracker

/-- One element of `self.expenses`: the dict
`{"amount": amount, "category": category, "date": date, "time": time}`
appended at `tracker_2.py:124`. -/
structure Record where
  amount : ℚ
  category : String
  date : String
  time : String
deriving Repr, DecidableEq

/-- The mutable widget/ledger state of the `ExpenseTracker` window. -/
structure State where
  amount_input : String
  category_current : String
  custom_category_input : String
  category_items : List String
  date_input : String
  time_input : String
  expenses : List Record
deriving Repr, DecidableEq

/-- The initial combo-box items (`tracker_2.py:30`). -/
def presetCategories : List String :=
  ["Food", "Travel", "Utilities", "Entertainment", "Others"]

/-- The state right after `__init__` (`tracker_2.py:13`): empty inputs,
first combo item selected, date and time labels holding the current
date and time rendered at construction, empty ledger. -/
def initState (d t : String) : State :=
  { amount_input := ""
    category_current := "Food"
    custom_category_input := ""
    category_items := presetCategories
    date_input := d
    time_input := t
    expenses := [] }

/-- Leading and trailing whitespace removed, as Python `str.strip()`. -/
def stripChars (cs : List Char) : List Char :=
  ((cs.dropWhile Char.isWhitespace).reverse.dropWhile Char.isWhitespace).reverse

/-- Python `text.strip()` (`tracker_2.py:109`). -/
def pyStrip (s : String) : String :=
  String.mk (stripChars s.data)

/-- Value of a digit string read in base 10. -/
def digitsToNat (cs : List Char) : ℕ :=
  cs.foldl (fun n c => 10 * n + (c.toNat - 48)) 0

/-- The sign and the integer/fractional digit groups of a plain decimal
numeral. -/
structure NumParts where
  neg : Bool
  intPart : ℕ
  fracPart : ℕ
  fracLen : ℕ
deriving Repr, DecidableEq

/-- Unsigned decimal: `digits`, `digits.digits`, `digits.` or
`.digits`, with at least one digit overall. -/
def parseUnsigned (neg : Bool) (cs : List Char) : Option NumParts :=
  let ip := cs.takeWhile Char.isDigit
  match cs.dropWhile Char.isDigit with
  | [] => if ip = [] then none else some ⟨neg, digitsToNat ip, 0, 0⟩
  | '.' :: fp =>
      if fp.all Char.isDigit ∧ (ip ≠ [] ∨ fp ≠ []) then
        some ⟨neg, digitsToNat ip, digitsToNat fp, fp.length⟩
      else none
  | _ => none

/-- Sign/digit decomposition of `t` after stripping whitespace. -/
def parseParts (t : String) : Option NumParts :=
  match stripChars t.data with
  | '-' :: cs => parseUnsigned true cs
  | '+' :: cs => parseUnsigned false cs
  | cs => parseUnsigned false cs

/-- The rational a decomposed numeral denotes. -/
def partsToRat (p : NumParts) : ℚ :=
  (if p.neg then -1 else 1) * ((p.intPart : ℚ) + (p.fracPart : ℚ) / 10 ^ p.fracLen)

/-- Model of Python `float(text)` at `tracker_2.py:104` on the plain
decimal fragment: surrounding whitespace, an optional sign, digits with
an optional fractional part.  `none` models the raised `ValueError`. -/
def parseFloat (t : String) : Option ℚ :=
  (parseParts t).map partsToRat

/-- The category a successful add stores: the custom text (stripped)
when `Others` is selected, else the selected preset
(`tracker_2.py:105-113`). -/
def effectiveCategory (s : State) : String :=
  if s.category_current = "Others" then pyStrip s.custom_category_input
  else s.category_current

/-- `ExpenseTracker.add_expense` (`tracker_2.py:101-139`).
A `ValueError` from `float` (modelled by `parseFloat = none`) or an
empty trimmed custom category for `Others` shows a warning box and
returns with the state untouched.  Otherwise the custom category is
added to the combo items when absent, the record is appended to
`self.expenses`, and the amount and custom-category fields are
cleared. -/
def add_expense (s : State) : State :=
  match parseFloat s.amount_input with
  | none => s
  | some amount =>
    if s.category_current = "Others" then
      let custom := pyStrip s.custom_category_input
      if custom = "" then s
      else
        { s with
          category_items :=
            if s.category_items.contains custom then s.category_items
            else s.category_items ++ [custom]
          expenses := s.expenses ++
            [{ amount := amount, category := custom,
               date := s.date_input, time := s.time_input }]
          amount_input := ""
          custom_category_input := "" }
    else
      { s with
        expenses := s.expenses ++
          [{ amount := amount, category := s.category_current,
             date := s.date_input, time := s.time_input }]
        amount_input := ""
        custom_category_input := "" }

/-- One step of the dict update
`categories[category] = categories.get(category, 0) + expense["amount"]`
(`tracker_2.py:158`), on an insertion-ordered association list. -/
def addToTotals (acc : List (String × ℚ)) (cat : String) (amt : ℚ) :
    List (String × ℚ) :=
  if acc.any (fun p => p.1 = cat) then
    acc.map (fun p => if p.1 = cat then (p.1, p.2 + amt) else p)
  else acc ++ [(cat, amt)]

/-- The `categories` dict built by the loop at `tracker_2.py:155-158`. -/
def totals_by_category (expenses : List Record) : List (String × ℚ) :=
  expenses.foldl (fun acc e => addToTotals acc e.category e.amount) []

/-- Outcome of `generate_report`: the warning box on an empty dict, or
the pie chart drawn from the dict keys and values
(`tracker_2.py:160-170`). -/
inductive ReportResult where
  | noData
  | chart (labels : List String) (values : List ℚ)
deriving Repr, DecidableEq

/-- `ExpenseTracker.generate_report` (`tracker_2.py:153-170`),
returning its observable outcome together with the (unchanged)
state. -/
def generate_report (s : State) : ReportResult × State :=
  let categories := totals_by_category s.expenses
  if categories = [] then (ReportResult.noData, s)
  else (ReportResult.chart (categories.map Prod.fst) (categories.map Prod.snd), s)

/-- A spreadsheet cell: a plain number or a text string. -/
inductive Cell where
  | num (q : ℚ)
  | str (s : String)
deriving Repr, DecidableEq

/-- The header row `pandas` writes for `DataFrame(self.expenses)`:
the dict keys, in insertion order (`tracker_2.py:124,149`). -/
def headerRow : List Cell :=
  [Cell.str "amount", Cell.str "category", Cell.str "date", Cell.str "time"]

/-- The data row for one record: the dict values in key order; the
amount stays a plain number (the `₹`-prefixed text exists only in the
table widget, not in `self.expenses`). -/
def recordRow (e : Record) : List Cell :=
  [Cell.num e.amount, Cell.str e.category, Cell.str e.date, Cell.str e.time]

/-- The file `df.to_excel(file_path, index=False)` writes
(`tracker_2.py:149-150`): header row plus one row per record. -/
def excelRows (expenses : List Record) : List (List Cell) :=
  headerRow :: expenses.map recordRow

/-- Outcome of `save_as_excel`: the no-data warning box, a silent
return on a cancelled file dialog, a successful write (with the rows
written), or an exception from `to_excel` that the method does not
catch (`tracker_2.py:141-151` has no try/except around the write). -/
inductive ExcelResult where
  | noData
  | cancelled
  | saved (rows : List (List Cell))
  | uncaughtWriteError
deriving Repr, DecidableEq

/-- `ExpenseTracker.save_as_excel` (`tracker_2.py:141-151`).
`writable` models whether `df.to_excel` succeeds at the chosen
destination; `file_path` is the dialog result (empty on cancel). -/
def save_as_excel (writable : Bool) (file_path : String) (s : State) :
    ExcelResult × State :=
  if s.expenses = [] then (ExcelResult.noData, s)
  else if file_path = "" then (ExcelResult.cancelled, s)
  else if writable then (ExcelResult.saved (excelRows s.expenses), s)
  else (ExcelResult.uncaughtWriteError, s)

/-- Whether the outcome of `save_as_excel` includes a blocking
`QMessageBox` shown by the method itself: the no-data warning and the
success box do, a cancelled dialog and an uncaught write exception do
not. -/
def surfacedAsNotification : ExcelResult → Bool
  | ExcelResult.noData => true
  | ExcelResult.saved _ => true
  | ExcelResult.cancelled => false
  | ExcelResult.uncaughtWriteError => false

/-- `ExpenseTracker.update_time` (`tracker_2.py:172-175`): the timer
callback sets the time label to the current time and touches nothing
else. -/
def update_time (now : String) (s : State) : State :=
  { s with time_input := now }

/-- States reachable in one session started with date label `d` and
time label `t`: the constructed state, followed by any interleaving of
user edits to the three inputs, combo selection (which hides and
clears the custom field unless `Others` is chosen,
`tracker_2.py:91-99`), timer ticks, adds, reports and saves. -/
inductive Reachable (d t : String) : State → Prop where
  | init : Reachable d t (initState d t)
  | typeAmount {s} (a : String) : Reachable d t s →
      Reachable d t { s with amount_input := a }
  | typeCustom {s} (c : String) : Reachable d t s →
      Reachable d t { s with custom_category_input := c }
  | selectCategory {s} (c : String) : Reachable d t s →
      c ∈ s.category_items →
      Reachable d t { s with
        category_current := c
        custom_category_input :=
          if c = "Others" then s.custom_category_input else "" }
  | tick {s} (now : String) : Reachable d t s →
      Reachable d t (update_time now s)
  | add {s} : Reachable d t s → Reachable d t (add_expense s)
  | report {s} : Reachable d t s → Reachable d t (generate_report s).2
  | save {s} (w : Bool) (p : String) : Reachable d t s →
      Reachable d t (save_as_excel w p s).2

/-- Whether some record of `es` has category `cat`. -/
def hasCat (es : List Record) (cat : String) : Bool :=
  es.any (fun e => e.category == cat)

/-- The sum of the amounts of the records of `es` with category `cat`. -/
def categorySum (es : List Record) (cat : String) : ℚ :=
  ((es.filter (fun e => e.category == cat)).map Record.amount).sum

/-- First value stored under key `cat` (the dict read
`categories.get(category, 0)` restricted to present keys). -/
def lookupTotal (l : List (String × ℚ)) (cat : String) : Option ℚ :=
  match l with
  | [] => none
  | p :: ps => if p.1 = cat then some p.2 else lookupTotal ps cat

/-- Concrete state: fresh window, `100` typed into the amount field. -/
def s1 : State :=
  { initState "01/01/2025" "12:00:00" with amount_input := "100" }

/-- Concrete state: fresh window, non-numeric text in the amount field. -/
def s2 : State :=
  { initState "01/01/2025" "12:00:00" with amount_input := "abc" }

/-- Concrete state: `Others` selected, custom text `Gifts`, amount `50`. -/
def s5 : State :=
  { initState "01/01/2025" "12:00:00" with
    amount_input := "50"
    category_current := "Others"
    custom_category_input := "Gifts" }

/-- Concrete state: fresh window, `-5` typed into the amount field. -/
def s6 : State :=
  { initState "01/01/2025" "12:00:00" with amount_input := "-5" }

/-- Concrete state: a ledger already holding one `Food` record. -/
def sOne : State :=
  { initState "01/01/2025" "12:00:00" with
    expenses := [{ amount := 100, category := "Food",
                   date := "01/01/2025", time := "12:00:00" }] }

lemma parseFloat_s1 : parseFloat s1.amount_input = some 100 := by
  have h : parseParts s1.amount_input = some ⟨false, 100, 0, 0⟩ := by decide
  simp [parseFloat, h, partsToRat]

lemma parseFloat_s2 : parseFloat s2.amount_input = none := by
  have h : parseParts s2.amount_input = none := by decide
  simp [parseFloat, h]

lemma parseFloat_s5 : parseFloat s5.amount_input = some 50 := by
  have h : parseParts s5.amount_input = some ⟨false, 50, 0, 0⟩ := by decide
  simp [parseFloat, h, partsToRat]

lemma parseFloat_s6 : parseFloat s6.amount_input = some (-5) := by
  have h : parseParts s6.amount_input = some ⟨true, 5, 0, 0⟩ := by decide
  simp [parseFloat, h, partsToRat]

/-- C1: whenever the amount text parses as a number and the effective
category is non-empty (a preset other than `Others`, or `Others` with a
non-empty stripped custom name), `add_expense` appends exactly one new
record: the count grows by one and the new record, carrying that amount
and category, is the last element of the ledger. -/
theorem C1_add_appends_one (s : State) (a : ℚ)
    (hp : parseFloat s.amount_input = some a)
    (hc : s.category_current ≠ "Others" ∨
      (s.category_current = "Others" ∧ pyStrip s.custom_category_input ≠ "")) :
    (add_expense s).expenses =
      s.expenses ++ [{ amount := a, category := effectiveCategory s,
                       date := s.date_input, time := s.time_input }] ∧
    (add_expense s).expenses.length = s.expenses.length + 1 ∧
    (add_expense s).expenses.getLast? =
      some { amount := a, category := effectiveCategory s,
             date := s.date_input, time := s.time_input } := by
  have hmain : (add_expense s).expenses =
      s.expenses ++ [{ amount := a, category := effectiveCategory s,
                       date := s.date_input, time := s.time_input }] := by
    unfold add_expense effectiveCategory
    rw [hp]
    rcases hc with h | ⟨h, hne⟩
    · simp [h]
    · simp [h, hne]
  refine ⟨hmain, ?_, ?_⟩
  · rw [hmain]; simp
  · rw [hmain]; simp

theorem C1_witness :
    (add_expense s1).expenses =
      s1.expenses ++ [{ amount := 100, category := effectiveCategory s1,
                        date := s1.date_input, time := s1.time_input }] ∧
    (add_expense s1).expenses.length = s1.expenses.length + 1 ∧
    (add_expense s1).expenses.getLast? =
      some { amount := 100, category := effectiveCategory s1,
             date := s1.date_input, time := s1.time_input } :=
  C1_add_appends_one s1 100 parseFloat_s1 (Or.inl (by decide))

/-- C2: when the amount text does not parse as a number, or `Others` is
selected with a custom name that is empty after stripping, `add_expense`
creates no record: the whole state, in particular the ledger's contents
and count, is unchanged. -/
theorem C2_rejection_atomic (s : State)
    (h : parseFloat s.amount_input = none ∨
      (s.category_current = "Others" ∧ pyStrip s.custom_category_input = "")) :
    add_expense s = s ∧
    (add_expense s).expenses = s.expenses ∧
    (add_expense s).expenses.length = s.expenses.length := by
  have hmain : add_expense s = s := by
    unfold add_expense
    rcases h with h | ⟨h1, h2⟩
    · rw [h]
    · cases hp : parseFloat s.amount_input with
      | none => rfl
      | some a => simp [h1, h2]
  exact ⟨hmain, by rw [hmain], by rw [hmain]⟩

theorem C2_witness :
    add_expense s2 = s2 ∧
    (add_expense s2).expenses = s2.expenses ∧
    (add_expense s2).expenses.length = s2.expenses.length :=
  C2_rejection_atomic s2 (Or.inl parseFloat_s2)

/-- C5: adding with `Others` and a non-empty stripped custom name `c`
creates a record whose category is `c`, and `c` is in the combo items
afterwards, so it can be selected again; it is not appended a second
time when it is already an item, and it is appended at the end when it
is not. -/
theorem C5_custom_category (s : State) (a : ℚ) (c : String)
    (hp : parseFloat s.amount_input = some a)
    (ho : s.category_current = "Others")
    (hc : pyStrip s.custom_category_input = c)
    (hne : c ≠ "") :
    (add_expense s).expenses.getLast? =
      some { amount := a, category := c,
             date := s.date_input, time := s.time_input } ∧
    c ∈ (add_expense s).category_items ∧
    (s.category_items.contains c = true →
      (add_expense s).category_items = s.category_items) ∧
    (s.category_items.contains c = false →
      (add_expense s).category_items = s.category_items ++ [c]) := by
  have hstate : add_expense s =
      { s with
        category_items :=
          if s.category_items.contains c then s.category_items
          else s.category_items ++ [c]
        expenses := s.expenses ++
          [{ amount := a, category := c,
             date := s.date_input, time := s.time_input }]
        amount_input := ""
        custom_category_input := "" } := by
    unfold add_expense
    rw [hp]
    simp [ho, hc, hne]
  refine ⟨by rw [hstate]; simp, ?_, ?_, ?_⟩
  · rw [hstate]
    by_cases hmem : c ∈ s.category_items
    · simp [hmem]
    · simp [hmem]
  · intro hmem
    have hm : c ∈ s.category_items := by simpa using hmem
    rw [hstate]; simp [hm]
  · intro hmem
    have hm : c ∉ s.category_items := by simpa using hmem
    rw [hstate]; simp [hm]

theorem C5_witness :
    (add_expense s5).expenses.getLast? =
      some { amount := 50, category := "Gifts",
             date := s5.date_input, time := s5.time_input } ∧
    "Gifts" ∈ (add_expense s5).category_items ∧
    (s5.category_items.contains "Gifts" = true →
      (add_expense s5).category_items = s5.category_items) ∧
    (s5.category_items.contains "Gifts" = false →
      (add_expense s5).category_items = s5.category_items ++ ["Gifts"]) :=
  C5_custom_category s5 50 "Gifts" parseFloat_s5 (by decide) (by decide) (by decide)

/-- C4: on a non-empty ledger and a confirmed dialog, the export writes
the header row followed by exactly one data row per record, columns in
the order amount, category, date, time, the amount as a plain number
and date/time as the display strings stored in the record. -/
theorem C4_export_shape (s : State) (path : String)
    (h1 : s.expenses ≠ []) (h2 : path ≠ "") :
    save_as_excel true path s = (ExcelResult.saved (excelRows s.expenses), s) ∧
    (excelRows s.expenses).length = s.expenses.length + 1 ∧
    (excelRows s.expenses).head? = some headerRow ∧
    (excelRows s.expenses).tail = s.expenses.map recordRow ∧
    ∀ e : Record, recordRow e =
      [Cell.num e.amount, Cell.str e.category, Cell.str e.date, Cell.str e.time] := by
  refine ⟨by simp [save_as_excel, h1, h2], by simp [excelRows], rfl, rfl, fun e => rfl⟩

theorem C4_witness :
    save_as_excel true "out.xlsx" sOne =
      (ExcelResult.saved (excelRows sOne.expenses), sOne) ∧
    (excelRows sOne.expenses).length = sOne.expenses.length + 1 ∧
    (excelRows sOne.expenses).head? = some headerRow ∧
    (excelRows sOne.expenses).tail = sOne.expenses.map recordRow ∧
    ∀ e : Record, recordRow e =
      [Cell.num e.amount, Cell.str e.category, Cell.str e.date, Cell.str e.time] :=
  C4_export_shape sOne "out.xlsx" (by decide) (by decide)

lemma generate_report_snd (s : State) : (generate_report s).2 = s := by
  unfold generate_report
  dsimp only
  split <;> rfl

lemma save_as_excel_snd (w : Bool) (p : String) (s : State) :
    (save_as_excel w p s).2 = s := by
  unfold save_as_excel
  split_ifs <;> rfl

/-- C7: with zero records the aggregation is the empty mapping, and both
`generate_report` and `save_as_excel` show the no-data notice and no-op:
no chart, no file, state unchanged. -/
theorem C7_empty_noop (s : State) (h : s.expenses = []) :
    totals_by_category s.expenses = [] ∧
    generate_report s = (ReportResult.noData, s) ∧
    ∀ (w : Bool) (path : String), save_as_excel w path s = (ExcelResult.noData, s) := by
  refine ⟨by rw [h]; rfl, ?_, fun w path => by simp [save_as_excel, h]⟩
  unfold generate_report
  rw [h]
  rfl

theorem C7_witness :
    totals_by_category (initState "01/01/2025" "12:00:00").expenses = [] ∧
    generate_report (initState "01/01/2025" "12:00:00") =
      (ReportResult.noData, initState "01/01/2025" "12:00:00") ∧
    ∀ (w : Bool) (path : String),
      save_as_excel w path (initState "01/01/2025" "12:00:00") =
        (ExcelResult.noData, initState "01/01/2025" "12:00:00") :=
  C7_empty_noop (initState "01/01/2025" "12:00:00") rfl

/-- C8: neither report generation nor export mutates the state: in every
outcome the state component returned by either operation is the input
state, so the ledger is identical before and after. -/
theorem C8_no_mutation (s : State) :
    (generate_report s).2 = s ∧
    (generate_report s).2.expenses = s.expenses ∧
    ∀ (w : Bool) (path : String),
      (save_as_excel w path s).2 = s ∧
      (save_as_excel w path s).2.expenses = s.expenses :=
  ⟨generate_report_snd s, by rw [generate_report_snd s],
   fun w path => ⟨save_as_excel_snd w path s, by rw [save_as_excel_snd w path s]⟩⟩

/-- C6 counterexample: from a fresh window with `-5` typed into the
amount field, `add_expense` places a record with amount `-5` into the
ledger, so the claimed invariant `amount > 0` fails. -/
theorem C6_counterexample :
    (add_expense s6).expenses =
      [{ amount := -5, category := "Food",
         date := "01/01/2025", time := "12:00:00" }] ∧
    ¬ (0 : ℚ) < -5 := by
  constructor
  · unfold add_expense
    rw [parseFloat_s6]
    simp [s6, initState]
  · norm_num

/-- C6 amended: `add_expense` validates only that the amount text parses
as a number; a text parsing to a non-positive value is accepted and the
record is stored with that non-positive amount unchanged. -/
theorem C6_amended_nonpositive_accepted (s : State) (a : ℚ)
    (hp : parseFloat s.amount_input = some a)
    (ha : a ≤ 0)
    (hc : s.category_current ≠ "Others") :
    (add_expense s).expenses =
      s.expenses ++ [{ amount := a, category := s.category_current,
                       date := s.date_input, time := s.time_input }] ∧
    a ≤ 0 := by
  refine ⟨?_, ha⟩
  unfold add_expense
  rw [hp]
  simp [hc]

theorem C6_witness :
    (add_expense s6).expenses =
      s6.expenses ++ [{ amount := -5, category := s6.category_current,
                        date := s6.date_input, time := s6.time_input }] ∧
    (-5 : ℚ) ≤ 0 :=
  C6_amended_nonpositive_accepted s6 (-5) parseFloat_s6 (by norm_num) (by decide)

/-- C9 counterexample: with a record in the ledger and a confirmed,
unwritable destination, `save_as_excel` ends in the uncaught `to_excel`
exception: the method shows no notification for it, since
`tracker_2.py:141-151` wraps the write in no try/except. -/
theorem C9_counterexample :
    (save_as_excel false "out.xlsx" sOne).1 = ExcelResult.uncaughtWriteError ∧
    surfacedAsNotification (save_as_excel false "out.xlsx" sOne).1 = false :=
  ⟨rfl, rfl⟩

/-- C9 amended: when the destination is unwritable, the exception raised
by `df.to_excel` is not caught inside `save_as_excel` and no
notification is shown by the method; the ledger state is unchanged. -/
theorem C9_amended_uncaught (s : State) (path : String)
    (h1 : s.expenses ≠ []) (h2 : path ≠ "") :
    save_as_excel false path s = (ExcelResult.uncaughtWriteError, s) ∧
    surfacedAsNotification (save_as_excel false path s).1 = false := by
  have hmain : save_as_excel false path s = (ExcelResult.uncaughtWriteError, s) := by
    simp [save_as_excel, h1, h2]
  exact ⟨hmain, by rw [hmain]; rfl⟩

theorem C9_witness :
    save_as_excel false "out.xlsx" sOne = (ExcelResult.uncaughtWriteError, sOne) ∧
    surfacedAsNotification (save_as_excel false "out.xlsx" sOne).1 = false :=
  C9_amended_uncaught sOne "out.xlsx" (by decide) (by decide)

lemma lookupTotal_append (l₁ l₂ : List (String × ℚ)) (cat : String) :
    lookupTotal (l₁ ++ l₂) cat =
      match lookupTotal l₁ cat with
      | some v => some v
      | none => lookupTotal l₂ cat := by
  induction l₁ with
  | nil => rfl
  | cons p ps ih => by_cases h : p.1 = cat <;> simp [lookupTotal, h, ih]

lemma lookupTotal_map_update (acc : List (String × ℚ)) (c : String) (a : ℚ)
    (cat : String) :
    lookupTotal (acc.map (fun p => if p.1 = c then (p.1, p.2 + a) else p)) cat =
      if cat = c then (lookupTotal acc cat).map (fun v => v + a)
      else lookupTotal acc cat := by
  induction acc with
  | nil => simp [lookupTotal]
  | cons p ps ih =>
    by_cases h1 : p.1 = c
    · by_cases h2 : cat = c
      · have h3 : p.1 = cat := by rw [h1, h2]
        simp [lookupTotal, h1, h2, h3]
      · have h3 : ¬ p.1 = cat := fun h => h2 (h ▸ h1)
        have h4 : ¬ c = cat := fun h => h3 (h1.trans h)
        simp [lookupTotal, h1, h2, h3, h4, ih]
    · by_cases h3 : p.1 = cat
      · have h2 : ¬ cat = c := fun h => h1 (h3.symm ▸ h)
        simp [lookupTotal, h1, h3, h2]
      · simp [lookupTotal, h1, h3, ih]

lemma any_eq_lookupTotal_isSome (l : List (String × ℚ)) (c : String) :
    l.any (fun p => p.1 = c) = (lookupTotal l c).isSome := by
  induction l with
  | nil => rfl
  | cons p ps ih => by_cases h : p.1 = c <;> simp [lookupTotal, h, ih]

lemma lookupTotal_addToTotals (acc : List (String × ℚ)) (c : String) (a : ℚ)
    (cat : String) :
    lookupTotal (addToTotals acc c a) cat =
      if cat = c then some ((lookupTotal acc c).getD 0 + a)
      else lookupTotal acc cat := by
  unfold addToTotals
  by_cases hc : acc.any (fun p => p.1 = c) = true
  · rw [if_pos hc, lookupTotal_map_update]
    have hs : (lookupTotal acc c).isSome := by
      rw [← any_eq_lookupTotal_isSome]; exact hc
    by_cases h2 : cat = c
    · subst h2
      cases hx : lookupTotal acc cat with
      | none => rw [hx] at hs; simp at hs
      | some v => simp [hx]
    · simp [h2]
  · have hn : lookupTotal acc c = none := by
      have := any_eq_lookupTotal_isSome acc c
      rw [eq_comm, Bool.eq_iff_iff] at this
      cases hx : lookupTotal acc c with
      | none => rfl
      | some v => exact absurd (this.mp (by rw [hx]; rfl)) hc
    rw [if_neg hc, lookupTotal_append]
    by_cases h2 : cat = c
    · subst h2; rw [hn]; simp [lookupTotal, hn]
    · have h2' : ¬ c = cat := fun h => h2 h.symm
      cases hx : lookupTotal acc cat <;> simp [lookupTotal, h2, h2', hx]

lemma lookupTotal_fold (es : List Record) (acc : List (String × ℚ)) (cat : String) :
    lookupTotal (es.foldl (fun acc e => addToTotals acc e.category e.amount) acc) cat =
      match lookupTotal acc cat with
      | some v => some (v + categorySum es cat)
      | none => if hasCat es cat then some (categorySum es cat) else none := by
  induction es generalizing acc with
  | nil => cases hx : lookupTotal acc cat <;> simp [categorySum, hasCat, hx]
  | cons e es ih =>
    rw [List.foldl_cons, ih, lookupTotal_addToTotals]
    by_cases h : cat = e.category
    · subst h
      cases hx : lookupTotal acc e.category <;>
        simp [categorySum, hasCat, hx, add_assoc]
    · have h' : ¬ e.category = cat := fun hh => h hh.symm
      cases hx : lookupTotal acc cat <;>
        simp [categorySum, hasCat, hx, h, h']

lemma mem_lookupTotal_isSome {l : List (String × ℚ)} {p : String × ℚ}
    (h : p ∈ l) : (lookupTotal l p.1).isSome := by
  induction l with
  | nil => cases h
  | cons q qs ih =>
    rcases List.mem_cons.mp h with rfl | h
    · simp [lookupTotal]
    · by_cases hq : q.1 = p.1 <;> simp [lookupTotal, hq, ih h]

/-- C3: the dict built by `generate_report` maps every category that
appears in at least one record to the sum of the amounts of the records
with that category, has no key for a category with no record, and over
the records `(100, Food), (50, Food), (30, Travel)` it is exactly
`Food ↦ 150, Travel ↦ 30`. -/
theorem C3_totals_by_category (es : List Record) :
    (∀ cat : String, lookupTotal (totals_by_category es) cat =
      if hasCat es cat then some (categorySum es cat) else none) ∧
    (totals_by_category es).all (fun p => hasCat es p.1) = true ∧
    totals_by_category
      [{ amount := 100, category := "Food", date := "d", time := "t" },
       { amount := 50, category := "Food", date := "d", time := "t" },
       { amount := 30, category := "Travel", date := "d", time := "t" }] =
      [("Food", 150), ("Travel", 30)] := by
  refine ⟨fun cat => ?_, ?_, ?_⟩
  · have h := lookupTotal_fold es [] cat
    simpa [lookupTotal] using h
  · rw [List.all_eq_true]
    intro p hp
    by_contra hno
    have hfalse : hasCat es p.1 = false := by
      cases hb : hasCat es p.1 with
      | false => rfl
      | true => exact absurd (by simp [hb]) hno
    have h1 := lookupTotal_fold es [] p.1
    rw [hfalse] at h1
    have h2 := mem_lookupTotal_isSome hp
    rw [totals_by_category] at h2
    rw [h1] at h2
    simp [lookupTotal] at h2
  · norm_num [totals_by_category, addToTotals]
    decide

lemma add_expense_cases (s : State) :
    add_expense s = s ∨
    ((add_expense s).expenses = s.expenses ++
        [{ amount := (parseFloat s.amount_input).getD 0,
           category := effectiveCategory s,
           date := s.date_input, time := s.time_input }] ∧
      (add_expense s).date_input = s.date_input ∧
      (add_expense s).time_input = s.time_input) := by
  cases hp : parseFloat s.amount_input with
  | none => left; unfold add_expense; rw [hp]
  | some a =>
    by_cases h1 : s.category_current = "Others"
    · by_cases h2 : pyStrip s.custom_category_input = ""
      · left; unfold add_expense; rw [hp]; simp [h1, h2]
      · right; unfold add_expense effectiveCategory; rw [hp]; simp [h1, h2]
    · right; unfold add_expense effectiveCategory; rw [hp]; simp [h1]

lemma add_expense_date (s : State) :
    (add_expense s).date_input = s.date_input := by
  rcases add_expense_cases s with h | ⟨-, h, -⟩
  · rw [h]
  · exact h

lemma add_expense_mem {s : State} {e : Record}
    (h : e ∈ (add_expense s).expenses) :
    e ∈ s.expenses ∨ (e.date = s.date_input ∧ e.time = s.time_input) := by
  rcases add_expense_cases s with hc | ⟨hexp, -, -⟩
  · rw [hc] at h; exact Or.inl h
  · rw [hexp] at h
    rcases List.mem_append.mp h with h | h
    · exact Or.inl h
    · rcases List.mem_singleton.mp h with rfl
      exact Or.inr ⟨rfl, rfl⟩

/-- C10: the timer callback rewrites only the time label, every
reachable state of a session constructed with date `d` still shows date
`d` and every record in its ledger carries date `d`, and a successful
add stamps the record with the time label as it stands at the moment of
the append. -/
theorem C10_date_frozen (d t : String) :
    (∀ (now : String) (s : State),
        (update_time now s).time_input = now ∧
        (update_time now s).date_input = s.date_input ∧
        (update_time now s).expenses = s.expenses) ∧
    (∀ s : State, Reachable d t s →
        s.date_input = d ∧ ∀ e ∈ s.expenses, e.date = d) ∧
    (∀ (s : State) (a : ℚ),
        parseFloat s.amount_input = some a →
        (s.category_current = "Others" → pyStrip s.custom_category_input ≠ "") →
        ((add_expense s).expenses.getLast?).map Record.time = some s.time_input) := by
  refine ⟨fun now s => ⟨rfl, rfl, rfl⟩, ?_, ?_⟩
  · intro s h
    induction h with
    | init => exact ⟨rfl, fun e he => by simp [initState] at he⟩
    | typeAmount a _ ih => exact ih
    | typeCustom c _ ih => exact ih
    | selectCategory c _ hmem ih => exact ih
    | tick now _ ih => exact ih
    | add _ ih =>
      refine ⟨(add_expense_date _).trans ih.1, fun e he => ?_⟩
      rcases add_expense_mem he with h | ⟨hd, -⟩
      · exact ih.2 e h
      · rw [hd]; exact ih.1
    | report _ ih => rw [generate_report_snd]; exact ih
    | save w p _ ih => rw [save_as_excel_snd]; exact ih
  · intro s a hp ho
    unfold add_expense
    rw [hp]
    by_cases h1 : s.category_current = "Others"
    · have h2 := ho h1
      simp [h1, h2]
    · simp [h1]

theorem C10_witness :
    (update_time "00:00:01" (initState "01/01/2025" "00:00:00")).time_input
      = "00:00:01" ∧
    (initState "01/01/2025" "00:00:00").date_input = "01/01/2025" ∧
    (∀ e ∈ (initState "01/01/2025" "00:00:00").expenses, e.date = "01/01/2025") ∧
    ((add_expense s1).expenses.getLast?).map Record.time = some s1.time_input := by
  have h := C10_date_frozen "01/01/2025" "00:00:00"
  have h2 := h.2.1 (initState "01/01/2025" "00:00:00") Reachable.init
  exact ⟨(h.1 "00:00:01" (initState "01/01/2025" "00:00:00")).1, h2.1, h2.2,
    h.2.2 s1 100 parseFloat_s1 (fun hothers => absurd hothers (by decide))⟩

end Tracker
